import Mathlib

/-!
Verification of the heap-profiler sample programs (`samples/heap-profiler.cc`).

The development shallowly embeds the reporting function
`PrintAllocationProfile`, the relevant straight-line parts of the two `main`
programs (the embedded-script sample and the file-driven CLI sample), and the
data model of `v8::AllocationProfile` (nodes, allocation records, samples).
Output produced with `printf` is modelled as a list of characters; the
fixed-width unsigned arithmetic of the totals (`size_t`, `unsigned int`) is
modelled with explicit `% 2^64` / `% 2^32`.
-/

/-- Modulus of the C type `size_t` (64-bit) used for `total_size`. -/
def U64 : Nat := 2 ^ 64

/-- Modulus of the C type `unsigned int` (32-bit) used for `total_count`. -/
def U32 : Nat := 2 ^ 32

/-- One `v8::AllocationProfile::Allocation`: `{ size_t size; unsigned int count; }`.
The fields are the numeric values stored in the C struct. -/
structure Alloc where
  size : Nat
  count : Nat
deriving DecidableEq

/-- One `v8::AllocationProfile::Sample`
(`node_id`, `size`, `count`, `sample_id`); the reporter only uses the
length of the sample vector. -/
structure Sample where
  node_id : Nat
  size : Nat
  count : Nat
  sample_id : Nat

mutual
/-- A `v8::AllocationProfile::Node*` pointer: either null or a node carrying
`name`, `script_name`, `line_number`, `allocations` and `children`
(children kept in their insertion order, as in the `std::vector`). -/
inductive NodeP where
  | null : NodeP
  | node : String → String → Int → List Alloc → NodeList → NodeP
/-- The `std::vector<Node*>` of children. -/
inductive NodeList where
  | nil : NodeList
  | cons : NodeP → NodeList → NodeList
end

/-- A `v8::AllocationProfile`: the sample vector (`GetSamples`) and the root
node pointer (`GetRootNode`, which may be null). -/
structure AllocationProfile where
  samples : List Sample
  root : NodeP

/-- The allocation-record list of a node (empty for the null pointer). -/
def allocsOf : NodeP → List Alloc
  | NodeP.null => []
  | NodeP.node _ _ _ a _ => a

/-- Decimal digit characters, for modelling `printf` number formatting. -/
def digitChar : Nat → Char
  | 0 => '0' | 1 => '1' | 2 => '2' | 3 => '3' | 4 => '4'
  | 5 => '5' | 6 => '6' | 7 => '7' | 8 => '8' | 9 => '9'
  | _ => '?'

/-- Fuel-driven accumulator loop for decimal rendering of a `Nat`. -/
def natDecAux : Nat → Nat → List Char → List Char
  | 0, _, acc => acc
  | fuel + 1, n, acc =>
    if n = 0 then acc else natDecAux fuel (n / 10) (digitChar (n % 10) :: acc)

/-- Decimal rendering of a `Nat`, as `printf("%zu")` / `printf("%u")` print it. -/
def natDec (n : Nat) : List Char :=
  if n = 0 then "0".toList else natDecAux n n []

/-- Decimal rendering of an `int`, as `printf("%d")` prints it. -/
def intDec (i : Int) : List Char :=
  if i < 0 then '-' :: natDec i.natAbs else natDec i.toNat

/-- `func_name = name.length() > 0 ? *name : "<anonymous>"` (line 49). -/
def funcNameOf (name : String) : String :=
  if name.length > 0 then name else "<anonymous>"

/-- `script_name = script.length() > 0 ? *script : "<unknown>"` (line 50). -/
def scriptNameOf (script : String) : String :=
  if script.length > 0 then script else "<unknown>"

/-- The totals loop of `PrintAllocationProfile` (lines 53-58):
`total_size += alloc.size * alloc.count` in `size_t` arithmetic and
`total_count += alloc.count` in `unsigned int` arithmetic, both starting
from zero.  Every arithmetic operation reduces modulo the type's width. -/
def totalsStep (acc : Nat × Nat) (a : Alloc) : Nat × Nat :=
  ((acc.1 + (a.size * a.count) % U64) % U64, (acc.2 + a.count) % U32)

/-- The totals accumulated by the loop, starting from `(0, 0)`. -/
def nodeTotals (allocs : List Alloc) : Nat × Nat :=
  allocs.foldl totalsStep (0, 0)

/-- Mathematical (unbounded) sum of `size * count` over a record list. -/
def sumSize : List Alloc → Nat
  | [] => 0
  | a :: l => a.size * a.count + sumSize l

/-- Mathematical (unbounded) sum of `count` over a record list. -/
def sumCount : List Alloc → Nat
  | [] => 0
  | a :: l => a.count + sumCount l

/-- The indentation the traversal prints at a given depth:
`for (int i = 0; i < depth; i++) printf("  ")`, i.e. `2 * depth` spaces. -/
def indentChars (depth : Nat) : List Char :=
  List.replicate (2 * depth) ' '

/-- The header line `printf("Function: %s (Script: %s, Line: %d)\n", ...)`. -/
def headerChars (name script : String) (line : Int) : List Char :=
  "Function: ".toList ++ (funcNameOf name).toList ++ " (Script: ".toList ++
    (scriptNameOf script).toList ++ ", Line: ".toList ++ intDec line ++ ")\n".toList

/-- The summary line `printf("  -> Total: %zu bytes, Count: %u\n", ...)`. -/
def totalChars (ts tc : Nat) : List Char :=
  "  -> Total: ".toList ++ natDec ts ++ " bytes, Count: ".toList ++ natDec tc ++ "\n".toList

mutual
/-- The recursive lambda `traverseNode` of `PrintAllocationProfile` (lines 39-70):
null pointers return immediately; otherwise the node prints its indentation
unconditionally, then (only when `total_count > 0`) the header line, the
indentation again and the summary line, and finally recurses into its
children at `depth + 1`. -/
def traverseNode : NodeP → Nat → List Char
  | NodeP.null, _ => []
  | NodeP.node name script line allocs children, depth =>
    indentChars depth ++
      (if 0 < (nodeTotals allocs).2 then
        headerChars name script line ++ indentChars depth ++
          totalChars (nodeTotals allocs).1 (nodeTotals allocs).2
      else []) ++
      traverseKids children (depth + 1)
/-- The `for (auto* child : node->children) traverseNode(child, depth + 1)` loop. -/
def traverseKids : NodeList → Nat → List Char
  | NodeList.nil, _ => []
  | NodeList.cons c cs, d => traverseNode c d ++ traverseKids cs d
end

/-- `PrintAllocationProfile` (lines 18-73): the null-profile guard, the
banner, the sample count, the null-root guard and the tree traversal. -/
def printAllocationProfile : Option AllocationProfile → List Char
  | none => "No allocation profile available\n".toList
  | some p =>
    "=== Allocation Profile ===\n".toList ++
      ("Total samples: ".toList ++ natDec p.samples.length ++ "\n".toList) ++
      (match p.root with
        | NodeP.null => "No root node found\n".toList
        | NodeP.node name script line allocs children =>
          traverseNode (NodeP.node name script line allocs children) 0)

example : natDec 0 = ['0'] := by decide
example : natDec 1234 = ['1', '2', '3', '4'] := by decide
example : intDec (-17) = ['-', '1', '7'] := by decide
example : nodeTotals [⟨16, 3⟩, ⟨32, 1⟩] = (80, 4) := by decide
example : nodeTotals [⟨1, 2 ^ 31⟩, ⟨1, 2 ^ 31⟩] = (2 ^ 32, 0) := by decide
example :
    traverseNode (NodeP.node "f" "s.js" 1 [⟨1, 2 ^ 31⟩, ⟨1, 2 ^ 31⟩] NodeList.nil) 0 = [] := by
  decide
example :
    traverseNode (NodeP.node "f" "s.js" 3 [⟨16, 2⟩] NodeList.nil) 1 =
      "  Function: f (Script: s.js, Line: 3)\n  ".toList ++
        "  -> Total: 32 bytes, Count: 2\n".toList := by
  decide

/-! ## Line structure of the rendered report -/

/-- Strip leading space characters from a line. -/
def dropSpaces : List Char → List Char
  | [] => []
  | c :: cs => if c = ' ' then dropSpaces cs else c :: cs

/-- The newline-terminated lines of a character stream, in order; a trailing
fragment not terminated by a newline is discarded. -/
def termLines : List Char → List (List Char)
  | [] => []
  | c :: cs =>
    if c = '\n' then [] :: termLines cs
    else
      match termLines cs with
      | [] => []
      | l :: ls => (c :: l) :: ls

/-- Join lines, terminating each with a newline. -/
def joinNl : List (List Char) → List Char
  | [] => []
  | l :: ls => l ++ '\n' :: joinNl ls

/-- Concatenation of the lists produced by `f` over a list. -/
def catMap (f : α → List β) : List α → List β
  | [] => []
  | a :: l => f a ++ catMap f l

mutual
/-- The visit order of the traversal: the node itself first, then the
children's subtrees in insertion order (depth-first pre-order); a null
pointer is not visited. -/
def preorderP : NodeP → List NodeP
  | NodeP.null => []
  | NodeP.node name script line allocs children =>
    NodeP.node name script line allocs children :: preorderKids children
/-- Pre-order lists of a child vector, concatenated in insertion order. -/
def preorderKids : NodeList → List NodeP
  | NodeList.nil => []
  | NodeList.cons c cs => preorderP c ++ preorderKids cs
end

/-- The header line's text as the spec describes it, without the newline. -/
def headerText (name script : String) (line : Int) : List Char :=
  "Function: ".toList ++ (funcNameOf name).toList ++ " (Script: ".toList ++
    (scriptNameOf script).toList ++ ", Line: ".toList ++ intDec line ++ ")".toList

/-- The summary line's text as the spec describes it, without the newline
and without its indentation. -/
def totalText (ts tc : Nat) : List Char :=
  "-> Total: ".toList ++ natDec ts ++ " bytes, Count: ".toList ++ natDec tc

/-- The report lines a single node contributes: a node whose accumulated
`total_count` is positive contributes its header line and its summary line;
any other node contributes none. -/
def nodeLines : NodeP → List (List Char)
  | NodeP.null => []
  | NodeP.node name script line allocs _ =>
    if 0 < (nodeTotals allocs).2 then
      [headerText name script line,
        totalText (nodeTotals allocs).1 (nodeTotals allocs).2]
    else []

/-- A string contains no newline character. -/
def noNlS (s : String) : Bool :=
  s.toList.all (fun c => !(c = '\n'))

mutual
/-- All function names and script names in the tree are newline-free. -/
def nlFreeN : NodeP → Bool
  | NodeP.null => true
  | NodeP.node name script _ _ children =>
    noNlS name && noNlS script && nlFreeK children
/-- Newline-freedom for a child vector. -/
def nlFreeK : NodeList → Bool
  | NodeList.nil => true
  | NodeList.cons c cs => nlFreeN c && nlFreeK cs
end

/-- A character stream is `Good L` when it consists of newline-terminated
lines followed by a (possibly empty) run of trailing spaces, and the lines
stripped of their leading spaces are exactly `L`. -/
def Good (s : List Char) (L : List (List Char)) : Prop :=
  ∃ raw k, s = joinNl raw ++ List.replicate k ' ' ∧
    raw.map dropSpaces = L ∧ ∀ l ∈ raw, '\n' ∉ l

theorem dropSpaces_replicate_append (k : Nat) (x : List Char) :
    dropSpaces (List.replicate k ' ' ++ x) = dropSpaces x := by
  induction k with
  | zero => rfl
  | succ k ih => simpa [List.replicate_succ, dropSpaces] using ih

theorem joinNl_append (a b : List (List Char)) :
    joinNl (a ++ b) = joinNl a ++ joinNl b := by
  induction a with
  | nil => rfl
  | cons l ls ih => simp [joinNl, ih]

theorem termLines_append_line (l rest : List Char) (h : '\n' ∉ l) :
    termLines (l ++ '\n' :: rest) = l :: termLines rest := by
  induction l with
  | nil => simp [termLines]
  | cons c cs ih =>
    have hc : ¬(c = '\n') := by
      intro hcn; exact h (hcn ▸ List.mem_cons_self c cs)
    have hcs : '\n' ∉ cs := fun hm => h (List.mem_cons_of_mem c hm)
    simp [termLines, hc, ih hcs]

theorem termLines_replicate_space (k : Nat) :
    termLines (List.replicate k ' ') = [] := by
  induction k with
  | zero => rfl
  | succ k ih => simp [List.replicate_succ, termLines, ih]

theorem termLines_joinNl (raw : List (List Char)) (k : Nat)
    (h : ∀ l ∈ raw, '\n' ∉ l) :
    termLines (joinNl raw ++ List.replicate k ' ') = raw := by
  induction raw with
  | nil => simpa [joinNl] using termLines_replicate_space k
  | cons l ls ih =>
    have hl : '\n' ∉ l := h l (List.mem_cons_self l ls)
    have hls : ∀ x ∈ ls, '\n' ∉ x := fun x hx => h x (List.mem_cons_of_mem l hx)
    calc termLines (joinNl (l :: ls) ++ List.replicate k ' ')
        = termLines (l ++ '\n' :: (joinNl ls ++ List.replicate k ' ')) := by
          simp [joinNl]
      _ = l :: termLines (joinNl ls ++ List.replicate k ' ') :=
          termLines_append_line _ _ hl
      _ = l :: ls := by rw [ih hls]

theorem Good.lines {s : List Char} {L : List (List Char)} (h : Good s L) :
    (termLines s).map dropSpaces = L := by
  obtain ⟨raw, k, hs, hmap, hnl⟩ := h
  rw [hs, termLines_joinNl raw k hnl, hmap]

theorem good_spaces (k : Nat) : Good (List.replicate k ' ') [] :=
  ⟨[], k, by simp [joinNl], rfl, by intro l hl; cases hl⟩

theorem good_empty : Good [] [] :=
  ⟨[], 0, by simp [joinNl], rfl, by intro l hl; cases hl⟩

theorem good_line (l : List Char) (h : '\n' ∉ l) :
    Good (l ++ ['\n']) [dropSpaces l] :=
  ⟨[l], 0, by simp [joinNl], rfl, by
    intro x hx
    rcases List.mem_singleton.mp hx with rfl
    exact h⟩

theorem good_append {s1 s2 : List Char} {L1 L2 : List (List Char)}
    (h1 : Good s1 L1) (h2 : Good s2 L2) : Good (s1 ++ s2) (L1 ++ L2) := by
  obtain ⟨r1, k1, hs1, hm1, hn1⟩ := h1
  obtain ⟨r2, k2, hs2, hm2, hn2⟩ := h2
  cases r2 with
  | nil =>
    refine ⟨r1, k1 + k2, ?_, ?_, hn1⟩
    · subst hs1 hs2
      simp only [joinNl]
      rw [List.nil_append, List.append_assoc, ← List.replicate_add]
    · rw [hm1, ← hm2]
      simp [joinNl]
  | cons r rs =>
    refine ⟨r1 ++ (List.replicate k1 ' ' ++ r) :: rs, k2, ?_, ?_, ?_⟩
    · subst hs1 hs2
      simp [joinNl_append, joinNl, List.append_assoc]
    · simp only [List.map_append, List.map_cons, hm1]
      have : dropSpaces (List.replicate k1 ' ' ++ r) = dropSpaces r :=
        dropSpaces_replicate_append k1 r
      simp only [this]
      rw [← hm2]
      simp
    · intro l hl
      rcases List.mem_append.mp hl with hl1 | hl2
      · exact hn1 l hl1
      · rcases List.mem_cons.mp hl2 with rfl | hmem
        · intro hmem2
          rcases List.mem_append.mp hmem2 with hsp | hr
          · have := List.eq_of_mem_replicate hsp
            simp at this
          · exact hn2 r (List.mem_cons_self _ _) hr
        · exact hn2 l (List.mem_cons_of_mem _ hmem)

/-! ## Newline-freedom of the rendered pieces -/

theorem digitChar_ne_nl (m : Nat) : digitChar m ≠ '\n' := by
  rcases m with _ | _ | _ | _ | _ | _ | _ | _ | _ | _ | m <;>
    first
    | decide
    | exact (by decide : ('?' : Char) ≠ '\n')

theorem natDecAux_noNl (fuel : Nat) :
    ∀ (n : Nat) (acc : List Char), '\n' ∉ acc → '\n' ∉ natDecAux fuel n acc := by
  induction fuel with
  | zero => intro n acc h; simpa [natDecAux] using h
  | succ fuel ih =>
    intro n acc h
    by_cases hn : n = 0
    · simpa [natDecAux, hn] using h
    · rw [natDecAux, if_neg hn]
      refine ih (n / 10) (digitChar (n % 10) :: acc) ?_
      intro hmem
      rcases List.mem_cons.mp hmem with hd | ht
      · exact digitChar_ne_nl (n % 10) hd.symm
      · exact h ht

theorem natDec_noNl (n : Nat) : '\n' ∉ natDec n := by
  by_cases hn : n = 0
  · simp [natDec, hn]
  · rw [natDec, if_neg hn]
    exact natDecAux_noNl n n [] (by simp)

theorem intDec_noNl (i : Int) : '\n' ∉ intDec i := by
  by_cases hi : i < 0
  · rw [intDec, if_pos hi]
    intro hmem
    rcases List.mem_cons.mp hmem with hd | ht
    · cases hd
    · exact natDec_noNl i.natAbs ht
  · rw [intDec, if_neg hi]
    exact natDec_noNl i.toNat

theorem noNlS_spec {s : String} (h : noNlS s = true) : '\n' ∉ s.toList := by
  intro hmem
  have := List.all_eq_true.mp h '\n' hmem
  simp at this

theorem funcNameOf_noNl {name : String} (h : noNlS name = true) :
    '\n' ∉ (funcNameOf name).toList := by
  by_cases hl : name.length > 0
  · rw [funcNameOf, if_pos hl]; exact noNlS_spec h
  · rw [funcNameOf, if_neg hl]; decide

theorem scriptNameOf_noNl {script : String} (h : noNlS script = true) :
    '\n' ∉ (scriptNameOf script).toList := by
  by_cases hl : script.length > 0
  · rw [scriptNameOf, if_pos hl]; exact noNlS_spec h
  · rw [scriptNameOf, if_neg hl]; decide

theorem headerText_noNl {name script : String} (line : Int)
    (h1 : noNlS name = true) (h2 : noNlS script = true) :
    '\n' ∉ headerText name script line := by
  rw [headerText]
  intro hmem
  simp only [List.mem_append] at hmem
  rcases hmem with ((((((hm | hm) | hm) | hm) | hm) | hm) | hm)
  · revert hm; decide
  · exact funcNameOf_noNl h1 hm
  · revert hm; decide
  · exact scriptNameOf_noNl h2 hm
  · revert hm; decide
  · exact intDec_noNl line hm
  · revert hm; decide

theorem totalText_noNl (ts tc : Nat) : '\n' ∉ totalText ts tc := by
  rw [totalText]
  intro hmem
  simp only [List.mem_append] at hmem
  rcases hmem with ((hm | hm) | hm) | hm
  · revert hm; decide
  · exact natDec_noNl ts hm
  · revert hm; decide
  · exact natDec_noNl tc hm

/-! ## The fixed-width totals equal the mathematical sums taken modulo the
type widths -/

theorem totalsStep_foldl (l : List Alloc) :
    ∀ t c : Nat,
      l.foldl totalsStep (t % U64, c % U32) =
        ((t + sumSize l) % U64, (c + sumCount l) % U32) := by
  induction l with
  | nil => intro t c; simp [sumSize, sumCount]
  | cons a l ih =>
    intro t c
    have hstep :
        totalsStep (t % U64, c % U32) a =
          ((t + a.size * a.count) % U64, (c + a.count) % U32) :=
      Prod.ext_iff.mpr
        ⟨(Nat.add_mod t (a.size * a.count) U64).symm,
          Nat.mod_add_mod c U32 a.count⟩
    calc (a :: l).foldl totalsStep (t % U64, c % U32)
        = l.foldl totalsStep ((t + a.size * a.count) % U64, (c + a.count) % U32) := by
          rw [List.foldl_cons, hstep]
      _ = ((t + a.size * a.count + sumSize l) % U64,
            (c + a.count + sumCount l) % U32) := ih _ _
      _ = ((t + sumSize (a :: l)) % U64, (c + sumCount (a :: l)) % U32) := by
          rw [sumSize, sumCount]
          simp [Nat.add_assoc]

theorem nodeTotals_eq (allocs : List Alloc) :
    nodeTotals allocs = (sumSize allocs % U64, sumCount allocs % U32) := by
  have h := totalsStep_foldl allocs 0 0
  simpa [nodeTotals] using h

/-! ## `Good` decompositions of the individual printed pieces -/

theorem dropSpaces_cons_ne {c : Char} (h : ¬(c = ' ')) (l : List Char) :
    dropSpaces (c :: l) = c :: l := by
  rw [dropSpaces, if_neg h]

theorem dropSpaces_cons_sp (l : List Char) :
    dropSpaces (' ' :: l) = dropSpaces l := by
  rw [dropSpaces, if_pos rfl]

theorem headerText_head (name script : String) (line : Int) :
    ∃ r, headerText name script line = 'F' :: r :=
  ⟨_, rfl⟩

theorem totalText_head (ts tc : Nat) : ∃ r, totalText ts tc = '-' :: r :=
  ⟨_, rfl⟩

theorem dropSpaces_headerText (name script : String) (line : Int) :
    dropSpaces (headerText name script line) = headerText name script line := by
  obtain ⟨r, hr⟩ := headerText_head name script line
  rw [hr, dropSpaces_cons_ne (by decide)]

theorem dropSpaces_totalText (ts tc : Nat) :
    dropSpaces (totalText ts tc) = totalText ts tc := by
  obtain ⟨r, hr⟩ := totalText_head ts tc
  rw [hr, dropSpaces_cons_ne (by decide)]

theorem headerChars_decomp (name script : String) (line : Int) :
    headerChars name script line = headerText name script line ++ ['\n'] := by
  rw [headerChars, headerText,
    show ")\n".toList = [')'] ++ ['\n'] from rfl,
    show ")".toList = [')'] from rfl]
  simp

theorem totalChars_decomp (ts tc : Nat) :
    totalChars ts tc = (' ' :: ' ' :: totalText ts tc) ++ ['\n'] := by
  rw [totalChars, totalText,
    show "  -> Total: ".toList = ' ' :: ' ' :: "-> Total: ".toList from rfl,
    show "\n".toList = ['\n'] from rfl]
  simp

theorem good_header {name script : String} (line : Int)
    (h1 : noNlS name = true) (h2 : noNlS script = true) :
    Good (headerChars name script line) [headerText name script line] := by
  rw [headerChars_decomp]
  have hg := good_line (headerText name script line) (headerText_noNl line h1 h2)
  rwa [dropSpaces_headerText] at hg

theorem good_total (ts tc : Nat) :
    Good (totalChars ts tc) [totalText ts tc] := by
  rw [totalChars_decomp]
  have hnl : '\n' ∉ ' ' :: ' ' :: totalText ts tc := by
    intro hmem
    rcases List.mem_cons.mp hmem with hd | hmem
    · cases hd
    rcases List.mem_cons.mp hmem with hd | hmem
    · cases hd
    exact totalText_noNl ts tc hmem
  have hg := good_line (' ' :: ' ' :: totalText ts tc) hnl
  rwa [dropSpaces_cons_sp, dropSpaces_cons_sp, dropSpaces_totalText] at hg

theorem good_indent (d : Nat) : Good (indentChars d) [] := by
  rw [indentChars]; exact good_spaces (2 * d)

theorem catMap_append (f : α → List β) (a b : List α) :
    catMap f (a ++ b) = catMap f a ++ catMap f b := by
  induction a with
  | nil => simp [catMap]
  | cons x xs ih => simp [catMap, ih]

/-! ## The rendered stream consists of the pre-order node lines -/

mutual
theorem good_traverse : ∀ (n : NodeP) (d : Nat), nlFreeN n = true →
    Good (traverseNode n d) (catMap nodeLines (preorderP n))
  | NodeP.null, d, _ => by
    rw [traverseNode.eq_1, preorderP.eq_1]
    simpa [catMap] using good_empty
  | NodeP.node name script line allocs cs, d, h => by
    rw [nlFreeN.eq_2, Bool.and_eq_true, Bool.and_eq_true] at h
    obtain ⟨⟨h1, h2⟩, h3⟩ := h
    have hk := good_traverseKids cs (d + 1) h3
    have ep : catMap nodeLines (preorderP (NodeP.node name script line allocs cs)) =
        nodeLines (NodeP.node name script line allocs cs) ++
          catMap nodeLines (preorderKids cs) := by
      rw [preorderP.eq_2]; simp [catMap]
    have en : nodeLines (NodeP.node name script line allocs cs) =
        if 0 < (nodeTotals allocs).2 then
          [headerText name script line,
            totalText (nodeTotals allocs).1 (nodeTotals allocs).2]
        else [] := rfl
    by_cases htc : 0 < (nodeTotals allocs).2
    · rw [traverseNode.eq_2, if_pos htc, ep, en, if_pos htc]
      have hg :=
        good_append (good_indent d)
          (good_append
            (good_append (good_header line h1 h2)
              (good_append (good_indent d)
                (good_total (nodeTotals allocs).1 (nodeTotals allocs).2)))
            hk)
      simpa using hg
    · rw [traverseNode.eq_2, if_neg htc, ep, en, if_neg htc]
      have hg := good_append (good_indent d) (good_append good_empty hk)
      simpa using hg
theorem good_traverseKids : ∀ (l : NodeList) (d : Nat), nlFreeK l = true →
    Good (traverseKids l d) (catMap nodeLines (preorderKids l))
  | NodeList.nil, d, _ => by
    rw [traverseKids.eq_1, preorderKids.eq_1]
    simpa [catMap] using good_empty
  | NodeList.cons c cs, d, h => by
    rw [nlFreeK.eq_2, Bool.and_eq_true] at h
    obtain ⟨h1, h2⟩ := h
    have hg := good_append (good_traverse c d h1) (good_traverseKids cs d h2)
    rw [traverseKids.eq_2, preorderKids.eq_2, catMap_append]
    exact hg
end

/-- The report lines of a traversal started at the root: every
newline-terminated line of the output, stripped of its leading spaces, is
exactly the pre-order sequence of per-node lines. -/
theorem traverse_lines (n : NodeP) (h : nlFreeN n = true) :
    (termLines (traverseNode n 0)).map dropSpaces = catMap nodeLines (preorderP n) :=
  (good_traverse n 0 h).lines

/-! ## Heap statistics and the two `main` programs -/

/-- The fields of `v8::HeapStatistics` the samples read. -/
structure HeapStats where
  total_heap_size : Nat
  used_heap_size : Nat
  heap_size_limit : Nat
  number_of_native_contexts : Nat
  total_allocated_bytes : Nat

/-- The fields of `v8::HeapSpaceStatistics` the embedded-script sample reads. -/
structure SpaceStats where
  space_name : String
  space_size : Nat
  space_used_size : Nat

/-- The heap-statistics block of the embedded-script sample
(lines 181-185): banner, total size, used size, size limit and
native-context count, one `printf` per line. -/
def heapStatsChars (hs : HeapStats) : List Char :=
  "\n=== Heap Statistics ===\n".toList ++
    ("Total heap size: ".toList ++ natDec hs.total_heap_size ++ " bytes\n".toList) ++
    ("Used heap size: ".toList ++ natDec hs.used_heap_size ++ " bytes\n".toList) ++
    ("Heap size limit: ".toList ++ natDec hs.heap_size_limit ++ " bytes\n".toList) ++
    ("Number of native contexts: ".toList ++
      natDec hs.number_of_native_contexts ++ "\n".toList)

/-- One iteration of the heap-space loop of the embedded-script sample
(lines 188-197): banner, space name, total size and used size. -/
def spaceStatsChars (s : SpaceStats) : List Char :=
  "\n=== Heap Space Statistics ===\n".toList ++
    ("Space name: ".toList ++ s.space_name.toList ++ "\n".toList) ++
    ("Total space size: ".toList ++ natDec s.space_size ++ " bytes\n".toList) ++
    ("Used space size: ".toList ++ natDec s.space_used_size ++ " bytes\n".toList)

/-- The `Basic Heap Statistics` block of the file-driven CLI sample
(lines 400-403): banner, total size, used size and total allocated bytes;
no size limit and no per-space loop (that loop is commented out). -/
def basicStatsChars (hs : HeapStats) : List Char :=
  "\n=== Basic Heap Statistics ===\n".toList ++
    ("Total heap size: ".toList ++ natDec hs.total_heap_size ++ " bytes\n".toList) ++
    ("Used heap size: ".toList ++ natDec hs.used_heap_size ++ " bytes\n".toList) ++
    ("Total allocated bytes: ".toList ++
      natDec hs.total_allocated_bytes ++ " bytes\n".toList)

/-- The external inputs of the embedded-script sample's `main`: the profile
returned by `GetAllocationProfile`, the script result string, and the heap
and heap-space counters returned by the V8 statistics calls. -/
structure SampleEnv where
  profile : Option AllocationProfile
  runResult : String
  hs : HeapStats
  spaces : List SpaceStats

/-- The stdout of the embedded-script sample's `main` (lines 75-211),
as a function of its external inputs: banner, sampling-start message,
execution message, script result, sampling-stop message, the allocation
profile report, the heap-statistics block, the per-space blocks and the
completion message. -/
def sampleMain (env : SampleEnv) : List Char :=
  "=== V8 Heap Profiler Example ===\n".toList ++
    "Starting allocation sampling...\n".toList ++
    "Executing JavaScript code to generate allocations...\n".toList ++
    ("Result: ".toList ++ env.runResult.toList ++ "\n".toList) ++
    "Stopping allocation sampling...\n".toList ++
    printAllocationProfile env.profile ++
    heapStatsChars env.hs ++
    catMap spaceStatsChars env.spaces ++
    "Heap profiler example completed successfully!\n".toList

/-- Profiler-state operations performed by the CLI sample's `main`, in
program order. -/
inductive PEvent where
  | startSampling : Nat → Nat → PEvent
  | getProfile : PEvent
  | stopSampling : PEvent
deriving DecidableEq

/-- The observable outcome of a run of the CLI sample's `main`. -/
structure CliRun where
  out : List Char
  err : List Char
  exitCode : Nat
  events : List PEvent
deriving DecidableEq

/-- The external inputs of the CLI sample's `main`: the content of the
script file named by `argv[1]` (`none` when the file cannot be opened), the
bytes the script itself writes through the installed `print` function, the
script result string and the heap counters. -/
structure CliEnv where
  fileContent : Option String
  scriptOut : List Char
  runResult : String
  hs : HeapStats

/-- The usage message of the CLI sample (lines 308-309), written to
`std::cerr`. -/
def usageText (prog : String) : List Char :=
  "Usage: ".toList ++ prog.toList ++ " <javascript_file>\n".toList ++
    "Example: ".toList ++ prog.toList ++ " test.js\n".toList

/-- `ReadFile` of the CLI sample (lines 291-303): returns the file content,
or prints an error to `std::cerr` and returns the empty string when the
file cannot be opened. -/
def readFileModel (filename : String) (content : Option String) : String × List Char :=
  match content with
  | none => ("", "Error: Could not open file ".toList ++ filename.toList ++ "\n".toList)
  | some s => (s, [])

/-- The CLI sample's `main` (lines 305-428), as a function of `argv[0]`,
the remaining arguments and the external inputs.  With no script argument
it prints the usage message to stderr and exits with status 1 before V8 or
the profiler is touched.  Otherwise it starts sampling, reads the file
(exiting with status 1 if the content is empty), runs the script, materializes
and stops the profiler (its report call is commented out), prints the basic
heap-statistics block and exits with status 0. -/
def cliMain (prog : String) (args : List String) (env : CliEnv) : CliRun :=
  match args with
  | [] => ⟨[], usageText prog, 1, []⟩
  | file :: _ =>
    let pre := "=== V8 Heap Profiler Example ===\n".toList ++
      "Starting allocation sampling...\n".toList
    let events0 := [PEvent.startSampling 1024 16]
    let rf := readFileModel file env.fileContent
    if rf.1 = "" then
      ⟨pre, rf.2 ++
        ("Failed to read JavaScript file: ".toList ++ file.toList ++ "\n".toList),
        1, events0⟩
    else
      ⟨pre ++
        ("Executing JavaScript code from file: ".toList ++ file.toList ++ "\n".toList) ++
        env.scriptOut ++
        ("Result: ".toList ++ env.runResult.toList ++ "\n".toList) ++
        "Stopping allocation sampling...\n".toList ++
        basicStatsChars env.hs ++
        "Heap profiler example completed successfully!\n".toList,
        rf.2, 0,
        events0 ++ [PEvent.getProfile, PEvent.stopSampling]⟩

/-! ## Substring search, for stating presence and absence of report pieces -/

/-- `beginsWith pat s` holds when `pat` is an initial segment of `s`. -/
def beginsWith : List Char → List Char → Bool
  | [], _ => true
  | _ :: _, [] => false
  | a :: as, b :: bs => a == b && beginsWith as bs

/-- `hasSub s pat` holds when `pat` occurs contiguously inside `s`. -/
def hasSub : List Char → List Char → Bool
  | [], pat => beginsWith pat []
  | c :: rest, pat => beginsWith pat (c :: rest) || hasSub rest pat

theorem beginsWith_self_append (pat y : List Char) :
    beginsWith pat (pat ++ y) = true := by
  induction pat with
  | nil => rfl
  | cons a as ih => simp [beginsWith, ih]

theorem hasSub_of_begins {s pat : List Char} (h : beginsWith pat s = true) :
    hasSub s pat = true := by
  cases s with
  | nil => simpa [hasSub] using h
  | cons c rest => simp [hasSub, h]

theorem hasSub_append_left (x : List Char) {s pat : List Char}
    (h : hasSub s pat = true) : hasSub (x ++ s) pat = true := by
  induction x with
  | nil => simpa using h
  | cons c cs ih => simp [hasSub, ih]

theorem hasSub_mid (x pat y : List Char) : hasSub (x ++ (pat ++ y)) pat = true :=
  hasSub_append_left x (hasSub_of_begins (beginsWith_self_append pat y))

/-! ## Helper lemmas about the statistics blocks -/

theorem heapStats_has_total (hs : HeapStats) :
    hasSub (heapStatsChars hs) "Total heap size: ".toList = true := by
  have h : heapStatsChars hs =
      "\n=== Heap Statistics ===\n".toList ++
        ("Total heap size: ".toList ++
          (natDec hs.total_heap_size ++
            (" bytes\n".toList ++
              (("Used heap size: ".toList ++ natDec hs.used_heap_size ++
                  " bytes\n".toList) ++
                (("Heap size limit: ".toList ++ natDec hs.heap_size_limit ++
                    " bytes\n".toList) ++
                  ("Number of native contexts: ".toList ++
                    natDec hs.number_of_native_contexts ++ "\n".toList)))))) := by
    simp [heapStatsChars, List.append_assoc]
  rw [h]
  exact hasSub_mid _ _ _

theorem heapStats_has_used (hs : HeapStats) :
    hasSub (heapStatsChars hs) "Used heap size: ".toList = true := by
  have h : heapStatsChars hs =
      ("\n=== Heap Statistics ===\n".toList ++
          ("Total heap size: ".toList ++ natDec hs.total_heap_size ++
            " bytes\n".toList)) ++
        ("Used heap size: ".toList ++
          (natDec hs.used_heap_size ++
            (" bytes\n".toList ++
              (("Heap size limit: ".toList ++ natDec hs.heap_size_limit ++
                  " bytes\n".toList) ++
                ("Number of native contexts: ".toList ++
                  natDec hs.number_of_native_contexts ++ "\n".toList))))) := by
    simp [heapStatsChars, List.append_assoc]
  rw [h]
  exact hasSub_mid _ _ _

theorem heapStats_has_limit (hs : HeapStats) :
    hasSub (heapStatsChars hs) "Heap size limit: ".toList = true := by
  have h : heapStatsChars hs =
      ("\n=== Heap Statistics ===\n".toList ++
          (("Total heap size: ".toList ++ natDec hs.total_heap_size ++
              " bytes\n".toList) ++
            ("Used heap size: ".toList ++ natDec hs.used_heap_size ++
              " bytes\n".toList))) ++
        ("Heap size limit: ".toList ++
          (natDec hs.heap_size_limit ++
            (" bytes\n".toList ++
              ("Number of native contexts: ".toList ++
                natDec hs.number_of_native_contexts ++ "\n".toList)))) := by
    simp [heapStatsChars, List.append_assoc]
  rw [h]
  exact hasSub_mid _ _ _

/-! ## The claims -/

/-- Claim C9: `PrintAllocationProfile` prints
`No allocation profile available` and returns when the profile pointer is
null; prints the banner, the sample count and `No root node found` when the
root pointer is null; and the traversal returns immediately (producing no
output) on a null node pointer.  The embedding is a total function, so no
case inspects a field of a null pointer. -/
theorem null_guards_safe :
    printAllocationProfile none = "No allocation profile available\n".toList ∧
    (∀ ss : List Sample,
      printAllocationProfile (some ⟨ss, NodeP.null⟩) =
        "=== Allocation Profile ===\n".toList ++
          ("Total samples: ".toList ++ natDec ss.length ++ "\n".toList) ++
          "No root node found\n".toList) ∧
    (∀ d : Nat, traverseNode NodeP.null d = []) := by
  refine ⟨rfl, fun ss => rfl, fun d => ?_⟩
  rw [traverseNode.eq_1]

/-- Claim C3: reporting a profile in which no samples were recorded (a root
with no children and no allocation records, and an empty sample vector)
prints the banner and the explicit line `Total samples: 0` - an explicit
indication that no data was recorded - and nothing else: no table rows,
no header lines and no summary lines. -/
theorem empty_profile_report (name script : String) (line : Int) :
    printAllocationProfile
        (some ⟨[], NodeP.node name script line [] NodeList.nil⟩) =
      "=== Allocation Profile ===\nTotal samples: 0\n".toList ∧
    (termLines (printAllocationProfile
        (some ⟨[], NodeP.node name script line [] NodeList.nil⟩))).map dropSpaces =
      ["=== Allocation Profile ===".toList, "Total samples: 0".toList] := by
  have ht : traverseNode (NodeP.node name script line [] NodeList.nil) 0 = [] := by
    rw [traverseNode.eq_2, traverseKids.eq_1]
    simp [nodeTotals, indentChars]
  have e0 : printAllocationProfile
      (some ⟨[], NodeP.node name script line [] NodeList.nil⟩) =
      "=== Allocation Profile ===\n".toList ++
        ("Total samples: ".toList ++ natDec 0 ++ "\n".toList) ++
        traverseNode (NodeP.node name script line [] NodeList.nil) 0 := rfl
  have hout : printAllocationProfile
      (some ⟨[], NodeP.node name script line [] NodeList.nil⟩) =
      "=== Allocation Profile ===\nTotal samples: 0\n".toList := by
    rw [e0, ht]; decide
  exact ⟨hout, by rw [hout]; decide⟩

/-- Claim C4: a node with zero direct allocation records is still visited,
and so is its whole child list (the subtree is not skipped): it stands in
the visit order right before the pre-order of its children, and its
rendering still recurses into every child; but it contributes no header
line and no summary line of its own (only its indentation). -/
theorem zero_record_nodes_visited (name script : String) (line : Int)
    (cs : NodeList) (d : Nat) :
    preorderP (NodeP.node name script line [] cs) =
      NodeP.node name script line [] cs :: preorderKids cs ∧
    traverseNode (NodeP.node name script line [] cs) d =
      indentChars d ++ traverseKids cs (d + 1) ∧
    nodeLines (NodeP.node name script line [] cs) = [] := by
  refine ⟨by rw [preorderP.eq_2], ?_, ?_⟩
  · rw [traverseNode.eq_2]
    simp [nodeTotals]
  · simp [nodeLines, nodeTotals]

/-- Claim C8: the traversal prints `2 * depth` space characters for every
visited node before the record check, unconditionally; consequently a node
with zero allocation records still contributes its indentation characters
to the output even though it emits no header or summary line. -/
theorem indentation_unconditional (name script : String) (line : Int)
    (allocs : List Alloc) (cs : NodeList) (d : Nat) :
    (∃ rest, traverseNode (NodeP.node name script line allocs cs) d =
      List.replicate (2 * d) ' ' ++ rest) ∧
    traverseNode (NodeP.node name script line [] cs) d =
      List.replicate (2 * d) ' ' ++ traverseKids cs (d + 1) := by
  constructor
  · exact ⟨(if 0 < (nodeTotals allocs).2 then
        headerChars name script line ++ indentChars d ++
          totalChars (nodeTotals allocs).1 (nodeTotals allocs).2
      else []) ++ traverseKids cs (d + 1),
      by rw [traverseNode.eq_2]; simp [indentChars, List.append_assoc]⟩
  · rw [traverseNode.eq_2]
    simp [nodeTotals, indentChars]

/-- Claim C5: an empty function name is reported as the fixed sentinel
`<anonymous>` and an empty script name as the fixed sentinel `<unknown>`;
a node with such names and a positive record count is reported normally
(header line and summary line), not treated as a failure. -/
theorem sentinel_names_reported :
    funcNameOf "" = "<anonymous>" ∧
    scriptNameOf "" = "<unknown>" ∧
    (∀ line : Int, headerChars "" "" line =
      "Function: <anonymous> (Script: <unknown>, Line: ".toList ++
        intDec line ++ ")\n".toList) ∧
    (∀ (line : Int) (allocs : List Alloc) (d : Nat),
      0 < (nodeTotals allocs).2 →
      traverseNode (NodeP.node "" "" line allocs NodeList.nil) d =
        indentChars d ++ headerChars "" "" line ++ indentChars d ++
          totalChars (nodeTotals allocs).1 (nodeTotals allocs).2) := by
  refine ⟨rfl, rfl, ?_, ?_⟩
  · intro line
    have h1 : (funcNameOf "").toList = "<anonymous>".toList := rfl
    have h2 : (scriptNameOf "").toList = "<unknown>".toList := rfl
    simp only [headerChars, h1, h2]
    have hlit : "Function: ".toList ++ "<anonymous>".toList ++
        " (Script: ".toList ++ "<unknown>".toList ++ ", Line: ".toList =
        "Function: <anonymous> (Script: <unknown>, Line: ".toList := by decide
    rw [← hlit]
  · intro line allocs d h
    rw [traverseNode.eq_2, if_pos h, traverseKids.eq_1]
    simp [List.append_assoc]

/-- Witness for claim C5: a concrete leaf node with empty name and script
and one record of size 8, count 1, reported with both sentinels. -/
theorem sentinel_names_reported_witness :
    0 < (nodeTotals [⟨8, 1⟩]).2 ∧
    traverseNode (NodeP.node "" "" 7 [⟨8, 1⟩] NodeList.nil) 0 =
      indentChars 0 ++ headerChars "" "" 7 ++ indentChars 0 ++
        totalChars (nodeTotals [⟨8, 1⟩]).1 (nodeTotals [⟨8, 1⟩]).2 :=
  ⟨by decide, sentinel_names_reported.2.2.2 7 [⟨8, 1⟩] 0 (by decide)⟩

/-- A node holding two allocation records whose counts sum to `2^32`:
the 32-bit accumulated `total_count` wraps to zero. -/
def wrapNode : NodeP :=
  NodeP.node "createStrings" "test.js" 3 [⟨1, 2 ^ 31⟩, ⟨1, 2 ^ 31⟩] NodeList.nil

/-- Counterexample to claim C1 as stated: `wrapNode` carries two
AllocationRecords, yet the reporter emits no identifying line and no
summary line for it - its rendering is empty, because the guard is the
accumulated 32-bit `total_count` (here `2^31 + 2^31 = 0 (mod 2^32)`), not
the presence of records. -/
theorem records_without_lines_cex :
    (allocsOf wrapNode).length = 2 ∧ nodeLines wrapNode = [] ∧
    traverseNode wrapNode 0 = [] :=
  ⟨rfl, by decide, by decide⟩

/-- Claim C1 as amended: for every node whose records' counts sum to a
nonzero value modulo `2^32`, the reporter emits exactly one identifying
line and one summary line, computed over that node's own records only:
`total_size = (Σ record.size * record.count) mod 2^64` and
`total_count = (Σ record.count) mod 2^32`; the children's output follows
separately, so descendants contribute nothing to either total. -/
theorem node_summary_own_records (name script : String) (line : Int)
    (allocs : List Alloc) (cs : NodeList) (d : Nat)
    (h : 0 < sumCount allocs % U32) :
    traverseNode (NodeP.node name script line allocs cs) d =
      indentChars d ++ headerChars name script line ++ indentChars d ++
        totalChars (sumSize allocs % U64) (sumCount allocs % U32) ++
        traverseKids cs (d + 1) := by
  have ht := nodeTotals_eq allocs
  have htc : 0 < (nodeTotals allocs).2 := by rw [ht]; exact h
  rw [traverseNode.eq_2, if_pos htc, ht]
  simp [List.append_assoc]

/-- Witness for claim C1 (amended), on the round-trip scenario of the
spec: records `{16 x 3, 32 x 1}` give `total_size = 80`, `total_count = 4`. -/
theorem node_summary_own_records_witness :
    0 < sumCount [⟨16, 3⟩, ⟨32, 1⟩] % U32 ∧
    traverseNode (NodeP.node "B" "s.js" 2 [⟨16, 3⟩, ⟨32, 1⟩] NodeList.nil) 0 =
      indentChars 0 ++ headerChars "B" "s.js" 2 ++ indentChars 0 ++
        totalChars (sumSize [⟨16, 3⟩, ⟨32, 1⟩] % U64)
          (sumCount [⟨16, 3⟩, ⟨32, 1⟩] % U32) ++
        traverseKids NodeList.nil 1 :=
  ⟨by decide,
    node_summary_own_records "B" "s.js" 2 [⟨16, 3⟩, ⟨32, 1⟩] NodeList.nil 0
      (by decide)⟩

/-- Claim C10: the per-node totals are computed in fixed-width unsigned
arithmetic - `total_size` is the sum of `size * count` modulo `2^64` and
`total_count` the sum of `count` modulo `2^32` - with no overflow
detection; the two concrete instances show silent wraparound: a single
record of size `2^63`, count 4 yields `total_size = 0`, and two records
with count `2^31` yield `total_count = 0`. -/
theorem totals_fixed_width_wraparound :
    (∀ allocs : List Alloc,
      nodeTotals allocs = (sumSize allocs % U64, sumCount allocs % U32)) ∧
    nodeTotals [⟨2 ^ 63, 4⟩] = (0, 4) ∧
    nodeTotals [⟨1, 2 ^ 31⟩, ⟨1, 2 ^ 31⟩] = (2 ^ 32, 0) :=
  ⟨nodeTotals_eq, by decide, by decide⟩

/-- Claim C2: the rendering visits nodes in depth-first pre-order (a
parent before its children, children in insertion order, as `preorderP`
enumerates them), and the newline-terminated output lines, stripped of
their leading indentation, are exactly, for each visited node that
receives a summary, the header line
`Function: <name> (Script: <script>, Line: <n>)` directly followed by the
summary line `-> Total: <bytes> bytes, Count: <n>` (the two lines
`nodeLines` prescribes); moreover every printed summary line starts with
at least two spaces of indentation.  Stated for trees whose names and
script names contain no newline character, since `printf` would otherwise
split a header across lines. -/
theorem render_preorder_line_format (t : NodeP) (h : nlFreeN t = true) :
    (termLines (traverseNode t 0)).map dropSpaces =
      catMap nodeLines (preorderP t) ∧
    (∀ ts tc : Nat, ∃ r, totalChars ts tc = ' ' :: ' ' :: r) := by
  refine ⟨traverse_lines t h, fun ts tc => ⟨totalText ts tc ++ ['\n'], ?_⟩⟩
  rw [totalChars_decomp]
  rfl

/-- A small concrete tree: a record-free root with two children, the first
with one record, the second with none. -/
def demoTree : NodeP :=
  NodeP.node "root" "s.js" 0 []
    (NodeList.cons (NodeP.node "f" "s.js" 3 [⟨16, 2⟩] NodeList.nil)
      (NodeList.cons (NodeP.node "g" "" 5 [] NodeList.nil) NodeList.nil))

/-- Witness for claim C2 on `demoTree`. -/
theorem render_preorder_line_format_witness :
    nlFreeN demoTree = true ∧
    ((termLines (traverseNode demoTree 0)).map dropSpaces =
        catMap nodeLines (preorderP demoTree) ∧
      (∀ ts tc : Nat, ∃ r, totalChars ts tc = ' ' :: ' ' :: r)) :=
  ⟨by decide, render_preorder_line_format demoTree (by decide)⟩

/-- Claim C7: invoked without the required script-path argument, the CLI
sample prints the usage message to the error stream, writes nothing to
stdout, exits with the non-zero status 1, and performs no profiler
operation at all (no sampling start, no profile materialization): the
usage check precedes every V8 and profiler call. -/
theorem cli_usage_error :
    (∀ (prog : String) (env : CliEnv),
      cliMain prog [] env = ⟨[], usageText prog, 1, []⟩) ∧
    (∀ prog : String, usageText prog =
      "Usage: ".toList ++ prog.toList ++ " <javascript_file>\n".toList ++
        "Example: ".toList ++ prog.toList ++ " test.js\n".toList) :=
  ⟨fun _ _ => rfl, fun _ => rfl⟩

/-- Concrete external inputs for the CLI sample: a readable, non-empty
script file and small heap counters. -/
def cliEnvDemo : CliEnv :=
  ⟨some "var x = 1;", [], "1", ⟨1000, 500, 2000, 1, 800⟩⟩

/-- Concrete external inputs for the embedded-script sample. -/
def sampleEnvDemo : SampleEnv :=
  ⟨some ⟨[], NodeP.null⟩, "ok", ⟨1000, 500, 2000, 1, 800⟩,
    [⟨"new_space", 64, 32⟩]⟩

set_option maxRecDepth 40000 in
/-- Counterexample to claim C6 as stated: the file-driven CLI sample's
stdout contains no `Heap size limit` entry and no `Heap Space Statistics`
block at all (its per-space loop is commented out), even though its basic
heap-statistics block is present (`Total heap size: ` occurs); so it is
not the case that every cited program prints a trailing block with the
heap size limit followed by per-space triples. -/
theorem cli_stats_lack_limit_and_spaces_cex :
    hasSub (cliMain "heap-profiler" ["test.js"] cliEnvDemo).out
        "Heap size limit".toList = false ∧
    hasSub (cliMain "heap-profiler" ["test.js"] cliEnvDemo).out
        "Heap Space Statistics".toList = false ∧
    hasSub (cliMain "heap-profiler" ["test.js"] cliEnvDemo).out
        "Total heap size: ".toList = true := by
  refine ⟨?_, ?_, ?_⟩ <;> decide

/-- Claim C6 as amended: after the allocation-profile report, the
embedded-script sample prints a trailing heap-statistics block listing the
total heap size, the used heap size, the heap size limit (and the
native-context count), followed by one name/total-size/used-size triple
per heap space; the file-driven CLI sample instead prints only total heap
size, used heap size and total allocated bytes, with no heap-size-limit
line and no per-space block (and its allocation-profile report call is
disabled). -/
theorem heap_stats_blocks :
    (∀ env : SampleEnv, sampleMain env =
      "=== V8 Heap Profiler Example ===\n".toList ++
        "Starting allocation sampling...\n".toList ++
        "Executing JavaScript code to generate allocations...\n".toList ++
        ("Result: ".toList ++ env.runResult.toList ++ "\n".toList) ++
        "Stopping allocation sampling...\n".toList ++
        printAllocationProfile env.profile ++
        heapStatsChars env.hs ++
        catMap spaceStatsChars env.spaces ++
        "Heap profiler example completed successfully!\n".toList) ∧
    (∀ hs : HeapStats,
      hasSub (heapStatsChars hs) "Total heap size: ".toList = true ∧
      hasSub (heapStatsChars hs) "Used heap size: ".toList = true ∧
      hasSub (heapStatsChars hs) "Heap size limit: ".toList = true) ∧
    (∀ sp : SpaceStats, spaceStatsChars sp =
      "\n=== Heap Space Statistics ===\n".toList ++
        ("Space name: ".toList ++ sp.space_name.toList ++ "\n".toList) ++
        ("Total space size: ".toList ++ natDec sp.space_size ++
          " bytes\n".toList) ++
        ("Used space size: ".toList ++ natDec sp.space_used_size ++
          " bytes\n".toList)) ∧
    (∀ (prog file : String) (rest : List String) (env2 : CliEnv),
      (readFileModel file env2.fileContent).1 ≠ "" →
      (cliMain prog (file :: rest) env2).out =
        ("=== V8 Heap Profiler Example ===\n".toList ++
            "Starting allocation sampling...\n".toList) ++
          ("Executing JavaScript code from file: ".toList ++ file.toList ++
            "\n".toList) ++
          env2.scriptOut ++
          ("Result: ".toList ++ env2.runResult.toList ++ "\n".toList) ++
          "Stopping allocation sampling...\n".toList ++
          basicStatsChars env2.hs ++
          "Heap profiler example completed successfully!\n".toList) := by
  refine ⟨fun env => rfl, ?_, fun sp => rfl, ?_⟩
  · exact fun hs => ⟨heapStats_has_total hs, heapStats_has_used hs,
      heapStats_has_limit hs⟩
  · intro prog file rest env2 hne
    simp [cliMain, hne]

/-- Witness for claim C6 (amended): the CLI-sample conjunct applied to a
concrete readable script file. -/
theorem heap_stats_blocks_witness :
    (readFileModel "test.js" cliEnvDemo.fileContent).1 ≠ "" ∧
    (cliMain "heap-profiler" ["test.js"] cliEnvDemo).out =
      ("=== V8 Heap Profiler Example ===\n".toList ++
          "Starting allocation sampling...\n".toList) ++
        ("Executing JavaScript code from file: ".toList ++
          "test.js".toList ++ "\n".toList) ++
        cliEnvDemo.scriptOut ++
        ("Result: ".toList ++ cliEnvDemo.runResult.toList ++ "\n".toList) ++
        "Stopping allocation sampling...\n".toList ++
        basicStatsChars cliEnvDemo.hs ++
        "Heap profiler example completed successfully!\n".toList :=
  ⟨by decide,
    heap_stats_blocks.2.2.2 "heap-profiler" "test.js" [] cliEnvDemo (by decide)⟩
